import Mathlib

/-
Verification development for the NVOS-Embedded device supervisor.

The Rust sources are shallowly embedded:
  * `HashMap<K, V>` becomes an association list `List (Nat × V)` with
    HashMap-style `lookupA` / `insertA` / `eraseA` operations (a well-formed
    map has `Nodup` keys, which `HashMap` guarantees);
  * `Uuid::new_v4()` becomes an explicit `Nat` parameter of the operation,
    with freshness (no collision with an outstanding key) stated as a
    hypothesis where the random v4 uuid's freshness matters;
  * `&mut self` methods become functions `state → result × state`.
-/

namespace NVOS

/-! ## Association list operations modelling Rust `HashMap` -/

def lookupA {α : Type} : List (Nat × α) → Nat → Option α
  | [], _ => none
  | (k, v) :: t, key => if k = key then some v else lookupA t key

def containsA {α : Type} (l : List (Nat × α)) (k : Nat) : Bool :=
  (lookupA l k).isSome

def insertA {α : Type} (l : List (Nat × α)) (k : Nat) (v : α) : List (Nat × α) :=
  if containsA l k then l.map (fun kv => if kv.1 = k then (k, v) else kv)
  else l ++ [(k, v)]

def eraseA {α : Type} (l : List (Nat × α)) (k : Nat) : List (Nat × α) :=
  l.filter (fun kv => kv.1 ≠ k)

def setA {α : Type} (l : List (Nat × α)) (k : Nat) (f : α → α) : List (Nat × α) :=
  l.map (fun kv => if kv.1 = k then (kv.1, f kv.2) else kv)

def keysA {α : Type} (l : List (Nat × α)) : List Nat :=
  l.map Prod.fst

/-! ## GPIO pin-lease arbiter (src/gpio.rs)

`PinState`, `GpioError` and `GpioBorrowChecker` are embedded field by field.
Pin numbers, BCM ids and lease uuids are `Nat`. -/

structure PinState where
  pin_number : Nat
  bcm_id : Nat
  leased : Bool
deriving DecidableEq, Repr

def PinState.new (pin_number bcm_id : Nat) : PinState :=
  { pin_number := pin_number, bcm_id := bcm_id, leased := false }

inductive GpioError where
  | Busy (pin : Nat)
  | PinNotFound (pin : Nat)
  | LeaseNotFound
  | PermissionDenied (msg : String)
  | Other (msg : String)
deriving DecidableEq, Repr

/-- Embeds the `Display` impl for `GpioError` in src/gpio.rs. -/
def gpioErrorMessage : GpioError → String
  | GpioError.Busy p => "pin " ++ toString p ++ " is busy"
  | GpioError.PinNotFound p => "pin " ++ toString p ++ " is not available"
  | GpioError.LeaseNotFound => "specified lease does not exist"
  | GpioError.PermissionDenied s => "permission denied: " ++ s
  | GpioError.Other s => s

structure GpioBorrowChecker where
  pins : List (Nat × PinState)
  leases : List (Nat × List Nat)
deriving DecidableEq, Repr

def GpioBorrowChecker.new (pins : List (Nat × PinState)) : GpioBorrowChecker :=
  { pins := pins, leases := [] }

def GpioBorrowChecker.get (s : GpioBorrowChecker) (pin : Nat) : Except GpioError PinState :=
  match lookupA s.pins pin with
  | some st => Except.ok st
  | none => Except.error (GpioError.PinNotFound pin)

def GpioBorrowChecker.has_pin (s : GpioBorrowChecker) (pin : Nat) : Bool :=
  containsA s.pins pin

def GpioBorrowChecker.has_lease (s : GpioBorrowChecker) (borrow_id : Nat) : Bool :=
  containsA s.leases borrow_id

def GpioBorrowChecker.can_borrow_one (s : GpioBorrowChecker) (pin : Nat) : Bool :=
  match lookupA s.pins pin with
  | some st => !st.leased
  | none => false

def GpioBorrowChecker.can_borrow_many (s : GpioBorrowChecker) : List Nat → Bool
  | [] => true
  | p :: rest =>
    if s.can_borrow_one p then s.can_borrow_many rest else false

/-- Embeds the validation loop at the head of `borrow_many`: the first pin that
is absent yields `PinNotFound`, the first pin that is already leased yields
`Busy`; `none` means every requested pin is present and free. -/
def borrow_check (s : GpioBorrowChecker) : List Nat → Option GpioError
  | [] => none
  | p :: rest =>
    match lookupA s.pins p with
    | none => some (GpioError.PinNotFound p)
    | some st => if st.leased then some (GpioError.Busy p) else borrow_check s rest

/-- Embeds the mutation loops of `borrow_many` (leased := true) and `release`
(leased := false). The Rust loops call `pins.get_mut(&pin).unwrap()`; on the
states reached through the public operations every pin of a lease is present,
so the unwrap never panics and the update below is exact. -/
def mark_pins (pins : List (Nat × PinState)) (ps : List Nat) (b : Bool) :
    List (Nat × PinState) :=
  ps.foldl (fun m p => setA m p (fun st => { st with leased := b })) pins

/-- Embeds `GpioBorrowChecker::borrow_many`. `uuid` stands for the freshly
generated `Uuid::new_v4()`; the returned pair is (call result, state after). -/
def GpioBorrowChecker.borrow_many (s : GpioBorrowChecker) (pins : List Nat) (uuid : Nat) :
    Except GpioError Nat × GpioBorrowChecker :=
  match borrow_check s pins with
  | some e => (Except.error e, s)
  | none =>
    (Except.ok uuid,
      { pins := mark_pins s.pins pins true, leases := insertA s.leases uuid pins })

def GpioBorrowChecker.borrow_one (s : GpioBorrowChecker) (pin : Nat) (uuid : Nat) :
    Except GpioError Nat × GpioBorrowChecker :=
  s.borrow_many [pin] uuid

/-- Embeds `GpioBorrowChecker::release`. -/
def GpioBorrowChecker.release (s : GpioBorrowChecker) (borrow_id : Nat) :
    Except GpioError Unit × GpioBorrowChecker :=
  match lookupA s.leases borrow_id with
  | none => (Except.error GpioError.LeaseNotFound, s)
  | some lease =>
    (Except.ok (),
      { pins := mark_pins s.pins lease false, leases := eraseA s.leases borrow_id })

/-- One public mutating arbiter operation; borrow operations carry the uuid
that `Uuid::new_v4()` would produce. -/
inductive GpioOp where
  | borrowOne (pin uuid : Nat)
  | borrowMany (pins : List Nat) (uuid : Nat)
  | releaseOp (uuid : Nat)
deriving DecidableEq, Repr

def applyOp (s : GpioBorrowChecker) : GpioOp → GpioBorrowChecker
  | GpioOp.borrowOne p u => (s.borrow_one p u).2
  | GpioOp.borrowMany ps u => (s.borrow_many ps u).2
  | GpioOp.releaseOp u => (s.release u).2

def runOps (s : GpioBorrowChecker) : List GpioOp → GpioBorrowChecker
  | [] => s
  | op :: rest => runOps (applyOp s op) rest

/-- Checks that every borrow operation in the sequence carries a uuid that does
not collide with an outstanding lease id — the behaviour of `Uuid::new_v4`. -/
def freshRun (s : GpioBorrowChecker) : List GpioOp → Bool
  | [] => true
  | op :: rest =>
    (match op with
      | GpioOp.borrowOne _ u => !containsA s.leases u
      | GpioOp.borrowMany _ u => !containsA s.leases u
      | GpioOp.releaseOp _ => true)
    && freshRun (applyOp s op) rest

/-- A freshly constructed checker over a `pin_id → bcm_id` configuration, each
position built with `PinState::new` as in the tests and `main`. -/
def mkChecker (cfg : List (Nat × Nat)) : GpioBorrowChecker :=
  GpioBorrowChecker.new (cfg.map (fun pc => (pc.1, PinState.new pc.1 pc.2)))

/-- The pin sets of outstanding leases cover exactly the pins marked leased. -/
def LeasedMatchesLeases (s : GpioBorrowChecker) : Prop :=
  ∀ p st, lookupA s.pins p = some st →
    (st.leased = true ↔ ∃ id ps, lookupA s.leases id = some ps ∧ p ∈ ps)

/-- No pin belongs to two distinct outstanding leases. -/
def LeasesDisjoint (s : GpioBorrowChecker) : Prop :=
  ∀ id1 ps1 id2 ps2 p, lookupA s.leases id1 = some ps1 →
    lookupA s.leases id2 = some ps2 → p ∈ ps1 → p ∈ ps2 → id1 = id2

/-- Every pin recorded in a lease is a pin of the pool. -/
def LeasePinsExist (s : GpioBorrowChecker) : Prop :=
  ∀ id ps, lookupA s.leases id = some ps → ∀ p ∈ ps, containsA s.pins p = true

/-- HashMap well-formedness of both maps. -/
def CheckerWF (s : GpioBorrowChecker) : Prop :=
  (keysA s.pins).Nodup ∧ (keysA s.leases).Nodup

def CheckerInv (s : GpioBorrowChecker) : Prop :=
  CheckerWF s ∧ LeasePinsExist s ∧ LeasedMatchesLeases s ∧ LeasesDisjoint s

/-! ## Device server (src/device.rs)

`DeviceDriver` is an open trait; it is embedded as a record of functions over
an abstract driver-state type `σ`. Every driver in the repository reads the
parent server passed to `start`/`stop` only to look controllers up, so the
embedding passes the list of registered bus-controller variant names (each
controller variant in the repository has a distinct `name()`). A `&mut self`
method becomes `state → result × state`: the driver state is updated in place
even when the call reports an error, exactly as in Rust. -/

inductive DeviceError where
  | NotFound (address : Nat)
  | MissingController (name : String)
  | DuplicateController
  | DuplicateDevice (msg : String)
  | HardwareError (msg : String)
  | InvalidOperation (msg : String)
  | InvalidConfig (msg : String)
  | Other (msg : String)
deriving DecidableEq, Repr

structure DriverImpl (σ : Type) where
  name : σ → String
  is_running : σ → Bool
  start : σ → List String → Option DeviceError × σ
  stop : σ → List String → Option DeviceError × σ

/-- Embeds `Device`: address (Uuid as `Nat`), friendly name, driver state. The
cached capability list plays no role in the claims and is omitted. -/
structure DeviceRec (σ : Type) where
  address : Nat
  name : String
  driver : σ
deriving DecidableEq, Repr

/-- Embeds `DeviceServer`: the bus-controller collection (one entry per
registered controller, identified by its variant name) and the
`address → Device` map. -/
structure DeviceServer (σ : Type) where
  bus_controllers : List String
  devices : List (Nat × DeviceRec σ)
deriving DecidableEq, Repr

/-- Embeds `DeviceServer::register_device`. -/
def register_device {σ : Type} (impl : DriverImpl σ) (s : DeviceServer σ)
    (device : DeviceRec σ) (start_device : Bool) : Option DeviceError × DeviceServer σ :=
  if containsA s.devices device.address then
    (some (DeviceError.DuplicateDevice
        ("device with address " ++ toString device.address ++ " already registered")), s)
  else if start_device && !(impl.is_running device.driver) then
    match impl.start device.driver s.bus_controllers with
    | (some e, _) => (some e, s)
    | (none, d') =>
      (none, { s with devices := insertA s.devices device.address { device with driver := d' } })
  else
    (none, { s with devices := insertA s.devices device.address device })

/-- Embeds `DeviceServer::start_device`. The driver state is written back even
when `start` fails, as the Rust code mutates the stored driver in place. -/
def start_device {σ : Type} (impl : DriverImpl σ) (s : DeviceServer σ) (address : Nat) :
    Option DeviceError × DeviceServer σ :=
  match lookupA s.devices address with
  | none => (some (DeviceError.NotFound address), s)
  | some d =>
    if impl.is_running d.driver then
      (some (DeviceError.InvalidOperation "device is already running"), s)
    else
      let r := impl.start d.driver s.bus_controllers
      (r.1, { s with devices := insertA s.devices address { d with driver := r.2 } })

/-- Embeds `DeviceServer::stop_device`. -/
def stop_device {σ : Type} (impl : DriverImpl σ) (s : DeviceServer σ) (address : Nat) :
    Option DeviceError × DeviceServer σ :=
  match lookupA s.devices address with
  | none => (some (DeviceError.NotFound address), s)
  | some d =>
    if !(impl.is_running d.driver) then
      (some (DeviceError.InvalidOperation "device is not currently running"), s)
    else
      let r := impl.stop d.driver s.bus_controllers
      (r.1, { s with devices := insertA s.devices address { d with driver := r.2 } })

/-- Embeds `DeviceServer::remove_device`: absent address is `NotFound`; a
running device is stopped first and a `stop` error is propagated with the
record kept (its driver state updated in place); otherwise the record is
evicted. -/
def remove_device {σ : Type} (impl : DriverImpl σ) (s : DeviceServer σ) (address : Nat) :
    Option DeviceError × DeviceServer σ :=
  match lookupA s.devices address with
  | none => (some (DeviceError.NotFound address), s)
  | some d =>
    if impl.is_running d.driver then
      match impl.stop d.driver s.bus_controllers with
      | (some e, d') =>
        (some e, { s with devices := insertA s.devices address { d with driver := d' } })
      | (none, d') =>
        (none,
          { s with
            devices := eraseA (insertA s.devices address { d with driver := d' }) address })
    else
      (none, { s with devices := eraseA s.devices address })

/-! ## The repository's device drivers (src/tests/device_tests.rs)

The drivers defined in the repository's test module, as a closed state type
with one `DriverImpl` interpretation. `FunDevice.start` sets `is_loaded`
before looking the FUN controller up, so a failed start still leaves the
flag set — the embedding reproduces that. -/

inductive TDriver where
  | noCap (loaded : Bool)
  | funD (loaded : Bool) (has_controller : Bool)
  | sleepy (loaded : Bool) (resting : Bool)
  | dummyLed (loaded : Bool)
deriving DecidableEq, Repr

def TDriver.loaded : TDriver → Bool
  | TDriver.noCap l => l
  | TDriver.funD l _ => l
  | TDriver.sleepy l _ => l
  | TDriver.dummyLed l => l

def tdriverImpl : DriverImpl TDriver where
  name := fun d =>
    match d with
    | TDriver.noCap _ => "nocap"
    | TDriver.funD _ _ => "fun"
    | TDriver.sleepy _ _ => "sleepy"
    | TDriver.dummyLed _ => "sleepy"
  is_running := TDriver.loaded
  start := fun d buses =>
    match d with
    | TDriver.noCap _ => (none, TDriver.noCap true)
    | TDriver.funD _ hc =>
      if buses.contains "FUN" then (none, TDriver.funD true true)
      else (some (DeviceError.MissingController "FUN"), TDriver.funD true hc)
    | TDriver.sleepy _ r => (none, TDriver.sleepy true r)
    | TDriver.dummyLed _ => (none, TDriver.dummyLed true)
  stop := fun d _ =>
    match d with
    | TDriver.noCap _ => (none, TDriver.noCap false)
    | TDriver.funD _ hc => (none, TDriver.funD false hc)
    | TDriver.sleepy _ r => (none, TDriver.sleepy false r)
    | TDriver.dummyLed _ => (none, TDriver.dummyLed false)

/-- A further `DeviceDriver` instance (the trait is open): its `stop` always
reports a hardware error. Used to exercise the `stop`-failure path of
`remove_device`. -/
def flakyImpl : DriverImpl Bool where
  name := fun _ => "flaky"
  is_running := fun b => b
  start := fun _ _ => (none, true)
  stop := fun b _ => (some (DeviceError.HardwareError "stop failed"), b)

/-! ## FUN controller and FUN-capable device (src/tests/device_tests.rs) -/

/-- Embeds `FunController::increase_fun` on the `fun_count` field. -/
def increase_fun (fun_count : Nat) : Option Nat × Nat :=
  if fun_count ≥ 10 then (none, fun_count)
  else (some (fun_count + 1), fun_count + 1)

/-- Embeds `FunCapable::have_fun` for `FunDevice`; the final branch models the
unreachable `panic!` as `none`. -/
def have_fun (fun_count : Nat) : Option String × Nat :=
  match increase_fun fun_count with
  | (none, c) => (some "had too much fun!", c)
  | (some k, c) =>
    if k < 3 then (some "slightly fun", c)
    else if 3 ≤ k ∧ k < 7 then (some "pretty fun", c)
    else if 7 ≤ k ∧ k ≤ 10 then (some "very fun", c)
    else (none, c)

/-- The controller's `fun_count` after `n` calls of `have_fun`, starting from
a fresh `FunController` (`fun_count = 0`). -/
def fun_count_after : Nat → Nat
  | 0 => 0
  | n + 1 => (have_fun (fun_count_after n)).2

/-- The string returned by the `n`-th call of `have_fun` (`n ≥ 1`). -/
def nth_have_fun (n : Nat) : Option String :=
  (have_fun (fun_count_after (n - 1))).1

/-! ## I²C bus controller (src/bus/i2c.rs)

Only the state and `close` are embedded; `open` touches the hardware through
rppal. `rc` models `Arc::strong_count` of the shared `I2c` handle, counting
the controller's own copy. -/

structure I2cInfo where
  bus_id : Nat
  lease_id : Nat
  rc : Nat
deriving DecidableEq, Repr

inductive I2CError where
  | InvalidConfig (msg : String)
  | BusNotFound (bus : Nat)
  | LeaseNotFound
  | InvalidAddress (addr : Nat)
  | Unsupported
  | ChannelBusy (bus : Nat)
  | HardwareError (msg : String)
  | OsError (msg : String)
  | Other (msg : String)
deriving DecidableEq, Repr

structure I2CBusController where
  pin_config : List (Nat × (Nat × Nat))
  owned_buses : List (Nat × I2cInfo)
  gpio_borrow : GpioBorrowChecker
deriving DecidableEq, Repr

/-- Embeds `I2CBusController::close`. -/
def I2CBusController.close (s : I2CBusController) (bus_id : Nat) :
    Except I2CError Unit × I2CBusController :=
  match lookupA s.owned_buses bus_id with
  | none => (Except.error I2CError.LeaseNotFound, s)
  | some info =>
    if info.rc > 1 then (Except.error (I2CError.ChannelBusy bus_id), s)
    else
      match s.gpio_borrow.release info.lease_id with
      | (Except.error e, g) =>
        (Except.error (I2CError.HardwareError (gpioErrorMessage e)),
          { s with gpio_borrow := g })
      | (Except.ok _, g) =>
        (Except.ok (),
          { pin_config := s.pin_config,
            owned_buses := eraseA s.owned_buses bus_id,
            gpio_borrow := g })

/-! ## Concrete fixtures (test data used to instantiate the theorems) -/

/-- The pin configuration of the gpio tests: `{2→12, 3→13, 4→14, 5→15, 6→16}`. -/
def cfgFive : List (Nat × Nat) := [(2, 12), (3, 13), (4, 14), (5, 15), (6, 16)]

/-- An empty device server over the repository's test drivers. -/
def emptyServerT : DeviceServer TDriver := { bus_controllers := [], devices := [] }

/-- A server holding one running sleepy device at address 1. -/
def serverRunning : DeviceServer TDriver :=
  { bus_controllers := [],
    devices := [(1, { address := 1, name := "d1", driver := TDriver.sleepy true false })] }

/-- A server holding one non-running sleepy device at address 2. -/
def serverIdle : DeviceServer TDriver :=
  { bus_controllers := [],
    devices := [(2, { address := 2, name := "d2", driver := TDriver.sleepy false false })] }

/-- A server holding one running device whose driver fails `stop`. -/
def serverFlaky : DeviceServer Bool :=
  { bus_controllers := [],
    devices := [(3, { address := 3, name := "flaky-3", driver := true })] }

/-- The server state after registering a sleepy device named "some_device" at
address 1 (without starting it). -/
def dupNameServer : DeviceServer TDriver :=
  (register_device tdriverImpl emptyServerT
    { address := 1, name := "some_device", driver := TDriver.sleepy false false } false).2

/-- A second device record carrying the same name but a different address. -/
def dupNameDevice : DeviceRec TDriver :=
  { address := 2, name := "some_device", driver := TDriver.sleepy false false }

/-- An arbiter state with bus 1's two pins (2, 3) held by lease 42, as left by
a successful `I2CBusController::open(1)`. -/
def i2cGpioFixture : GpioBorrowChecker :=
  { pins := [(2, { pin_number := 2, bcm_id := 12, leased := true }),
             (3, { pin_number := 3, bcm_id := 13, leased := true })],
    leases := [(42, [2, 3])] }

/-- An I²C controller owning bus 1 via lease 42, whose shared handle has the
given strong count. -/
def i2cCtlFixture (rc : Nat) : I2CBusController :=
  { pin_config := [(1, (2, 3))],
    owned_buses := [(1, { bus_id := 1, lease_id := 42, rc := rc })],
    gpio_borrow := i2cGpioFixture }

theorem lookupA_nil {α : Type} (k : Nat) : lookupA ([] : List (Nat × α)) k = none := rfl

theorem lookupA_cons {α : Type} (k key : Nat) (v : α) (t : List (Nat × α)) :
    lookupA ((k, v) :: t) key = if k = key then some v else lookupA t key := rfl

theorem containsA_eq_false_iff {α : Type} (l : List (Nat × α)) (k : Nat) :
    containsA l k = false ↔ ∀ kv ∈ l, kv.1 ≠ k := by
  induction l with
  | nil => simp [containsA, lookupA]
  | cons hd t ih =>
    obtain ⟨k0, v0⟩ := hd
    by_cases hk : k0 = k
    · subst hk
      constructor
      · intro hc
        exfalso
        simp [containsA, lookupA] at hc
      · intro hall
        exact absurd rfl (hall (k0, v0) (List.mem_cons_self _ _))
    · have hstep : containsA ((k0, v0) :: t) k = containsA t k := by
        simp [containsA, lookupA, hk]
      rw [hstep, ih]
      constructor
      · intro h kv hkv
        rcases List.mem_cons.mp hkv with h1 | h1
        · subst h1; exact hk
        · exact h kv h1
      · intro h kv hkv
        exact h kv (List.mem_cons_of_mem _ hkv)

theorem containsA_eq_false_iff_keys {α : Type} (l : List (Nat × α)) (k : Nat) :
    containsA l k = false ↔ k ∉ keysA l := by
  rw [containsA_eq_false_iff]
  constructor
  · intro hall hmem
    obtain ⟨kv, hkv, hfst⟩ := List.mem_map.mp hmem
    exact hall kv hkv hfst
  · intro hnone kv hkv hfst
    exact hnone (List.mem_map.mpr ⟨kv, hkv, hfst⟩)

theorem lookupA_mem {α : Type} {l : List (Nat × α)} {k : Nat} {v : α}
    (h : lookupA l k = some v) : (k, v) ∈ l := by
  induction l with
  | nil => simp [lookupA] at h
  | cons hd t ih =>
    obtain ⟨k0, v0⟩ := hd
    by_cases hk : k0 = k
    · subst hk
      rw [lookupA_cons, if_pos rfl] at h
      injection h with h
      subst h
      exact List.mem_cons_self _ _
    · rw [lookupA_cons, if_neg hk] at h
      exact List.mem_cons_of_mem _ (ih h)

theorem lookupA_isSome_of_mem {α : Type} {l : List (Nat × α)} {k : Nat} {v : α}
    (h : (k, v) ∈ l) : (lookupA l k).isSome = true := by
  induction l with
  | nil => simp at h
  | cons hd t ih =>
    obtain ⟨k0, v0⟩ := hd
    rcases List.mem_cons.mp h with h1 | h1
    · injection h1 with hk hv
      subst hk
      simp [lookupA]
    · by_cases hk : k0 = k
      · simp [lookupA, hk]
      · rw [lookupA_cons, if_neg hk]
        exact ih h1

theorem lookupA_of_mem_nodup {α : Type} {l : List (Nat × α)} {k : Nat} {v : α}
    (hnd : (keysA l).Nodup) (h : (k, v) ∈ l) : lookupA l k = some v := by
  induction l with
  | nil => simp at h
  | cons hd t ih =>
    obtain ⟨k0, v0⟩ := hd
    simp only [keysA, List.map_cons, List.nodup_cons] at hnd
    rcases List.mem_cons.mp h with h1 | h1
    · injection h1 with hk hv
      subst hk
      subst hv
      simp [lookupA]
    · by_cases hk : k0 = k
      · exfalso
        apply hnd.1
        subst hk
        exact List.mem_map.mpr ⟨(k0, v), h1, rfl⟩
      · rw [lookupA_cons, if_neg hk]
        exact ih hnd.2 h1

theorem lookupA_map_keyfix {α : Type} (l : List (Nat × α)) (g : Nat × α → Nat × α)
    (hg : ∀ kv, (g kv).1 = kv.1) (k : Nat) :
    lookupA (l.map g) k = (lookupA l k).map (fun v => ((g (k, v)).2)) := by
  induction l with
  | nil => simp [lookupA]
  | cons hd t ih =>
    obtain ⟨k0, v0⟩ := hd
    by_cases hk : k0 = k
    · subst hk
      have h1 : g (k0, v0) = (k0, (g (k0, v0)).2) := by
        refine Prod.ext ?_ rfl
        exact hg (k0, v0)
      simp only [List.map_cons]
      rw [h1, lookupA_cons, lookupA_cons, if_pos rfl, if_pos rfl]
      rfl
    · have h1 : (g (k0, v0)).1 = k0 := hg (k0, v0)
      simp only [List.map_cons]
      rw [show g (k0, v0) = ((g (k0, v0)).1, (g (k0, v0)).2) from rfl, lookupA_cons,
        lookupA_cons, h1, if_neg hk, if_neg hk]
      exact ih

theorem keysA_map_keyfix {α : Type} (l : List (Nat × α)) (g : Nat × α → Nat × α)
    (hg : ∀ kv, (g kv).1 = kv.1) : keysA (l.map g) = keysA l := by
  simp only [keysA, List.map_map]
  exact List.map_congr_left (fun kv _ => hg kv)

theorem lookupA_eq_none_of_not_contains {α : Type} {l : List (Nat × α)} {k : Nat}
    (h : containsA l k = false) : lookupA l k = none := by
  unfold containsA at h
  cases hv : lookupA l k with
  | none => rfl
  | some v => rw [hv] at h; simp at h

theorem lookupA_setA {α : Type} (l : List (Nat × α)) (k : Nat) (f : α → α) (k' : Nat) :
    lookupA (setA l k f) k' =
      if k' = k then (lookupA l k).map f else lookupA l k' := by
  unfold setA
  have hg : ∀ kv : Nat × α, ((if kv.1 = k then (kv.1, f kv.2) else kv) : Nat × α).1 = kv.1 := by
    intro kv
    by_cases h : kv.1 = k <;> simp [h]
  rw [lookupA_map_keyfix _ _ hg]
  by_cases hk : k' = k
  · subst hk
    rw [if_pos rfl]
    cases hv : lookupA l k' with
    | none => rfl
    | some v => simp
  · rw [if_neg hk]
    cases hv : lookupA l k' with
    | none => rfl
    | some v => simp [hk]

theorem keysA_setA {α : Type} (l : List (Nat × α)) (k : Nat) (f : α → α) :
    keysA (setA l k f) = keysA l := by
  unfold setA
  exact keysA_map_keyfix _ _ (fun kv => by by_cases h : kv.1 = k <;> simp [h])

theorem insertA_of_fresh {α : Type} (l : List (Nat × α)) (k : Nat) (v : α)
    (h : containsA l k = false) : insertA l k v = l ++ [(k, v)] := by
  unfold insertA
  rw [h]
  rfl

theorem lookupA_append_left {α : Type} (l l2 : List (Nat × α)) (k : Nat)
    (h : (lookupA l k).isSome) : lookupA (l ++ l2) k = lookupA l k := by
  induction l with
  | nil => simp [lookupA] at h
  | cons hd t ih =>
    obtain ⟨k0, v0⟩ := hd
    by_cases hk : k0 = k
    · subst hk
      simp [lookupA]
    · rw [lookupA_cons, if_neg hk] at h
      simp only [List.cons_append]
      rw [lookupA_cons, lookupA_cons, if_neg hk, if_neg hk]
      exact ih h

theorem lookupA_append_right {α : Type} (l l2 : List (Nat × α)) (k : Nat)
    (h : lookupA l k = none) : lookupA (l ++ l2) k = lookupA l2 k := by
  induction l with
  | nil => rfl
  | cons hd t ih =>
    obtain ⟨k0, v0⟩ := hd
    by_cases hk : k0 = k
    · subst hk
      rw [lookupA_cons, if_pos rfl] at h
      exact absurd h (by simp)
    · rw [lookupA_cons, if_neg hk] at h
      simp only [List.cons_append]
      rw [lookupA_cons, if_neg hk]
      exact ih h

theorem lookupA_insertA_self {α : Type} (l : List (Nat × α)) (k : Nat) (v : α) :
    lookupA (insertA l k v) k = some v := by
  unfold insertA
  have hg : ∀ kv : Nat × α, ((if kv.1 = k then (k, v) else kv) : Nat × α).1 = kv.1 := by
    intro kv
    by_cases h : kv.1 = k <;> simp [h]
  by_cases hc : containsA l k
  · rw [if_pos hc]
    rw [lookupA_map_keyfix _ _ hg]
    obtain ⟨w, hw⟩ := Option.isSome_iff_exists.mp hc
    rw [hw]
    simp
  · rw [if_neg hc, lookupA_append_right _ _ _
      (lookupA_eq_none_of_not_contains (Bool.not_eq_true _ ▸ hc))]
    simp [lookupA]

theorem lookupA_insertA_ne {α : Type} (l : List (Nat × α)) (k : Nat) (v : α) (k' : Nat)
    (h : k' ≠ k) : lookupA (insertA l k v) k' = lookupA l k' := by
  unfold insertA
  have hg : ∀ kv : Nat × α, ((if kv.1 = k then (k, v) else kv) : Nat × α).1 = kv.1 := by
    intro kv
    by_cases hh : kv.1 = k <;> simp [hh]
  by_cases hc : containsA l k
  · rw [if_pos hc, lookupA_map_keyfix _ _ hg]
    cases hv : lookupA l k' with
    | none => rfl
    | some w => simp [h]
  · rw [if_neg hc]
    cases hv : lookupA l k' with
    | some w => rw [lookupA_append_left _ _ _ (by simp [hv]), hv]
    | none =>
      rw [lookupA_append_right _ _ _ hv]
      simp [lookupA, Ne.symm h]

theorem lookupA_eraseA {α : Type} (l : List (Nat × α)) (k k' : Nat) :
    lookupA (eraseA l k) k' = if k' = k then none else lookupA l k' := by
  induction l with
  | nil => simp [eraseA, lookupA]
  | cons hd t ih =>
    obtain ⟨k0, v0⟩ := hd
    by_cases hk0 : k0 = k
    · subst hk0
      have hstep : eraseA ((k0, v0) :: t) k0 = eraseA t k0 := by
        unfold eraseA
        rw [List.filter_cons_of_neg (by simp)]
      rw [hstep, ih]
      by_cases hk : k' = k0
      · simp [hk]
      · simp only [if_neg hk]
        rw [lookupA_cons, if_neg (fun hh => hk hh.symm)]
    · have hstep : eraseA ((k0, v0) :: t) k = (k0, v0) :: eraseA t k := by
        unfold eraseA
        rw [List.filter_cons_of_pos (by simp [hk0])]
      rw [hstep, lookupA_cons, lookupA_cons, ih]
      by_cases hk : k' = k
      · simp only [if_pos hk]
        rw [if_neg (fun hh => hk0 (hh.trans hk))]
      · simp [hk]

theorem keysA_eraseA {α : Type} (l : List (Nat × α)) (k : Nat) :
    keysA (eraseA l k) = (keysA l).filter (fun x => x ≠ k) := by
  induction l with
  | nil => rfl
  | cons hd t ih =>
    obtain ⟨k0, v0⟩ := hd
    unfold eraseA at ih ⊢
    by_cases hk0 : k0 = k
    · subst hk0
      rw [List.filter_cons_of_neg (by simp)]
      simp only [keysA, List.map_cons]
      rw [List.filter_cons_of_neg (by simp)]
      exact ih
    · rw [List.filter_cons_of_pos (by simp [hk0])]
      simp only [keysA, List.map_cons]
      rw [List.filter_cons_of_pos (by simp [hk0])]
      simp only [keysA] at ih
      rw [ih]

theorem eraseA_append_fresh {α : Type} (l : List (Nat × α)) (k : Nat) (v : α)
    (h : containsA l k = false) : eraseA (l ++ [(k, v)]) k = l := by
  unfold eraseA
  rw [List.filter_append]
  have h2 : List.filter (fun kv => decide (kv.1 ≠ k)) [(k, v)] = [] := by simp
  rw [h2, List.append_nil]
  apply List.filter_eq_self.mpr
  intro kv hkv
  simpa using (containsA_eq_false_iff l k).mp h kv hkv

theorem filter_ne_map_replace {α : Type} (t : List (Nat × α)) (k : Nat) (v : α) :
    List.filter (fun kv => decide (kv.1 ≠ k))
        (t.map (fun kv => if kv.1 = k then (k, v) else kv)) =
      List.filter (fun kv => decide (kv.1 ≠ k)) t := by
  induction t with
  | nil => rfl
  | cons hd tl ih =>
    obtain ⟨k0, v0⟩ := hd
    by_cases hk0 : k0 = k
    · subst hk0
      simp only [List.map_cons, if_pos rfl]
      rw [List.filter_cons_of_neg (by simp), List.filter_cons_of_neg (by simp)]
      exact ih
    · simp only [List.map_cons, if_neg hk0]
      rw [List.filter_cons_of_pos (by simp [hk0]), List.filter_cons_of_pos (by simp [hk0])]
      rw [ih]

theorem eraseA_insertA_self {α : Type} (l : List (Nat × α)) (k : Nat) (v : α) :
    eraseA (insertA l k v) k = eraseA l k := by
  unfold insertA
  by_cases hc : containsA l k
  · rw [if_pos hc]
    unfold eraseA
    exact filter_ne_map_replace l k v
  · rw [if_neg hc]
    unfold eraseA
    rw [List.filter_append]
    have h2 : List.filter (fun kv => decide (kv.1 ≠ k)) [(k, v)] = [] := by simp
    rw [h2, List.append_nil]

/-! ## Lemmas about `mark_pins` and `borrow_check` -/

theorem mark_pins_nil (l : List (Nat × PinState)) (b : Bool) : mark_pins l [] b = l := rfl

theorem mark_pins_cons (l : List (Nat × PinState)) (p : Nat) (ps : List Nat) (b : Bool) :
    mark_pins l (p :: ps) b =
      mark_pins (setA l p (fun st => { st with leased := b })) ps b := rfl

theorem lookupA_mark_pins (l : List (Nat × PinState)) (ps : List Nat) (b : Bool) (q : Nat) :
    lookupA (mark_pins l ps b) q =
      if q ∈ ps then (lookupA l q).map (fun st => { st with leased := b })
      else lookupA l q := by
  induction ps generalizing l with
  | nil => simp [mark_pins_nil]
  | cons p t ih =>
    rw [mark_pins_cons, ih]
    by_cases ht : q ∈ t
    · rw [if_pos ht, if_pos (List.mem_cons_of_mem _ ht), lookupA_setA]
      by_cases hp : q = p
      · rw [if_pos hp, Option.map_map]
        subst hp
        cases lookupA l q with
        | none => rfl
        | some st => rfl
      · rw [if_neg hp]
    · rw [if_neg ht, lookupA_setA]
      by_cases hp : q = p
      · subst hp
        rw [if_pos rfl, if_pos (List.mem_cons_self _ _)]
      · rw [if_neg hp, if_neg (by
          intro hmem
          rcases List.mem_cons.mp hmem with h1 | h1
          · exact hp h1
          · exact ht h1)]

theorem keysA_mark_pins (l : List (Nat × PinState)) (ps : List Nat) (b : Bool) :
    keysA (mark_pins l ps b) = keysA l := by
  induction ps generalizing l with
  | nil => rfl
  | cons p t ih => rw [mark_pins_cons, ih, keysA_setA]

theorem containsA_mark_pins (l : List (Nat × PinState)) (ps : List Nat) (b : Bool) (q : Nat) :
    containsA (mark_pins l ps b) q = containsA l q := by
  unfold containsA
  rw [lookupA_mark_pins]
  by_cases hq : q ∈ ps
  · rw [if_pos hq]
    cases lookupA l q <;> rfl
  · rw [if_neg hq]

theorem mark_pins_eq_map (l : List (Nat × PinState)) (ps : List Nat) (b : Bool) :
    mark_pins l ps b =
      l.map (fun kv => if kv.1 ∈ ps then (kv.1, { kv.2 with leased := b }) else kv) := by
  induction ps generalizing l with
  | nil =>
    rw [mark_pins_nil]
    have hfun : ∀ kv ∈ l,
        (if (kv : Nat × PinState).1 ∈ ([] : List Nat) then (kv.1, { kv.2 with leased := b })
          else kv) = kv := by
      intro kv _
      simp
    rw [List.map_congr_left hfun, List.map_id']
  | cons p t ih =>
    rw [mark_pins_cons, ih]
    unfold setA
    rw [List.map_map]
    apply List.map_congr_left
    intro kv _
    by_cases hp : kv.1 = p
    · by_cases ht : kv.1 ∈ t
      · simp [hp, ht, Function.comp]
      · simp [hp, ht, Function.comp]
    · by_cases ht : kv.1 ∈ t
      · simp [hp, ht, Function.comp]
      · have : kv.1 ∉ p :: t := by
          intro hmem
          rcases List.mem_cons.mp hmem with h1 | h1
          · exact hp h1
          · exact ht h1
        simp [hp, ht, Function.comp, this]

theorem mark_pins_true_then_false (l : List (Nat × PinState)) (ps : List Nat)
    (hnd : (keysA l).Nodup)
    (h : ∀ p ∈ ps, ∀ st, lookupA l p = some st → st.leased = false) :
    mark_pins (mark_pins l ps true) ps false = l := by
  rw [mark_pins_eq_map, mark_pins_eq_map, List.map_map]
  have hfun : ∀ kv ∈ l,
      ((fun kv : Nat × PinState =>
          if kv.1 ∈ ps then (kv.1, { kv.2 with leased := false }) else kv) ∘
        (fun kv : Nat × PinState =>
          if kv.1 ∈ ps then (kv.1, { kv.2 with leased := true }) else kv)) kv = kv := by
    intro kv hkv
    by_cases hp : kv.1 ∈ ps
    · have hlk : lookupA l kv.1 = some kv.2 := lookupA_of_mem_nodup hnd hkv
      have hleased : kv.2.leased = false := h kv.1 hp kv.2 hlk
      obtain ⟨k, st⟩ := kv
      obtain ⟨pn, bc, ls⟩ := st
      simp only at hleased
      subst hleased
      simp [hp, Function.comp]
    · simp [hp, Function.comp]
  rw [List.map_congr_left hfun, List.map_id']

theorem borrow_check_cons_none (s : GpioBorrowChecker) (p : Nat) (t : List Nat)
    (hl : lookupA s.pins p = none) :
    borrow_check s (p :: t) = some (GpioError.PinNotFound p) := by
  rw [show borrow_check s (p :: t) = match lookupA s.pins p with
      | none => some (GpioError.PinNotFound p)
      | some st => if st.leased then some (GpioError.Busy p) else borrow_check s t from rfl,
    hl]

theorem borrow_check_cons_some (s : GpioBorrowChecker) (p : Nat) (t : List Nat)
    (st : PinState) (hl : lookupA s.pins p = some st) :
    borrow_check s (p :: t) =
      if st.leased then some (GpioError.Busy p) else borrow_check s t := by
  rw [show borrow_check s (p :: t) = match lookupA s.pins p with
      | none => some (GpioError.PinNotFound p)
      | some st => if st.leased then some (GpioError.Busy p) else borrow_check s t from rfl,
    hl]

theorem borrow_check_none_iff (s : GpioBorrowChecker) (ps : List Nat) :
    borrow_check s ps = none ↔
      ∀ p ∈ ps, ∃ st, lookupA s.pins p = some st ∧ st.leased = false := by
  induction ps with
  | nil => simp [borrow_check]
  | cons p t ih =>
    cases hl : lookupA s.pins p with
    | none =>
      rw [borrow_check_cons_none s p t hl]
      constructor
      · intro h
        exact absurd h (by simp)
      · intro h
        obtain ⟨st, hst, _⟩ := h p (List.mem_cons_self _ _)
        rw [hl] at hst
        exact absurd hst (by simp)
    | some st =>
      rw [borrow_check_cons_some s p t st hl]
      by_cases hb : st.leased
      · rw [if_pos hb]
        constructor
        · intro h
          exact absurd h (by simp)
        · intro h
          obtain ⟨st2, hst2, hl2⟩ := h p (List.mem_cons_self _ _)
          rw [hl] at hst2
          injection hst2 with hst2
          subst hst2
          rw [hb] at hl2
          exact absurd hl2 (by simp)
      · rw [if_neg hb, ih]
        constructor
        · intro h q hq
          rcases List.mem_cons.mp hq with h1 | h1
          · subst h1
            exact ⟨st, hl, Bool.not_eq_true _ ▸ hb⟩
          · exact h q h1
        · intro h q hq
          exact h q (List.mem_cons_of_mem _ hq)

theorem can_borrow_many_iff_check (s : GpioBorrowChecker) (ps : List Nat) :
    s.can_borrow_many ps = true ↔ borrow_check s ps = none := by
  induction ps with
  | nil => simp [GpioBorrowChecker.can_borrow_many, borrow_check]
  | cons p t ih =>
    unfold GpioBorrowChecker.can_borrow_many borrow_check GpioBorrowChecker.can_borrow_one
    cases hl : lookupA s.pins p with
    | none => simp
    | some st =>
      by_cases hb : st.leased
      · simp [hb]
      · simp only [hb, Bool.not_false, if_true, if_neg]
        rw [ih]
        simp [hb]

theorem borrow_check_some_cases (s : GpioBorrowChecker) (ps : List Nat) (e : GpioError)
    (h : borrow_check s ps = some e) :
    (∃ p, e = GpioError.PinNotFound p ∧ p ∈ ps ∧ containsA s.pins p = false) ∨
    (∃ p, e = GpioError.Busy p ∧ p ∈ ps ∧
      ∃ st, lookupA s.pins p = some st ∧ st.leased = true) := by
  induction ps with
  | nil => exact absurd h (by simp [borrow_check])
  | cons p t ih =>
    cases hl : lookupA s.pins p with
    | none =>
      rw [borrow_check_cons_none s p t hl] at h
      injection h with h
      subst h
      exact Or.inl ⟨p, rfl, List.mem_cons_self _ _, by simp [containsA, hl]⟩
    | some st =>
      rw [borrow_check_cons_some s p t st hl] at h
      by_cases hb : st.leased
      · rw [if_pos hb] at h
        injection h with h
        subst h
        exact Or.inr ⟨p, rfl, List.mem_cons_self _ _, st, hl, hb⟩
      · rw [if_neg hb] at h
        rcases ih h with ⟨q, he, hq, hrest⟩ | ⟨q, he, hq, hrest⟩
        · exact Or.inl ⟨q, he, List.mem_cons_of_mem _ hq, hrest⟩
        · exact Or.inr ⟨q, he, List.mem_cons_of_mem _ hq, hrest⟩

/-! ## Reduction equations for the arbiter operations -/

theorem borrow_many_of_check_some (s : GpioBorrowChecker) (ps : List Nat) (u : Nat)
    (e : GpioError) (h : borrow_check s ps = some e) :
    s.borrow_many ps u = (Except.error e, s) := by
  rw [show s.borrow_many ps u = match borrow_check s ps with
      | some e => (Except.error e, s)
      | none =>
        (Except.ok u,
          ({ pins := mark_pins s.pins ps true,
             leases := insertA s.leases u ps } : GpioBorrowChecker)) from rfl,
    h]

theorem borrow_many_of_check_none (s : GpioBorrowChecker) (ps : List Nat) (u : Nat)
    (h : borrow_check s ps = none) :
    s.borrow_many ps u =
      (Except.ok u,
        { pins := mark_pins s.pins ps true, leases := insertA s.leases u ps }) := by
  rw [show s.borrow_many ps u = match borrow_check s ps with
      | some e => (Except.error e, s)
      | none =>
        (Except.ok u,
          ({ pins := mark_pins s.pins ps true,
             leases := insertA s.leases u ps } : GpioBorrowChecker)) from rfl,
    h]

theorem release_of_lookup_none (s : GpioBorrowChecker) (u : Nat)
    (h : lookupA s.leases u = none) :
    s.release u = (Except.error GpioError.LeaseNotFound, s) := by
  rw [show s.release u = match lookupA s.leases u with
      | none => (Except.error GpioError.LeaseNotFound, s)
      | some lease =>
        (Except.ok (),
          ({ pins := mark_pins s.pins lease false,
             leases := eraseA s.leases u } : GpioBorrowChecker)) from rfl,
    h]

theorem release_of_lookup_some (s : GpioBorrowChecker) (u : Nat) (ps : List Nat)
    (h : lookupA s.leases u = some ps) :
    s.release u =
      (Except.ok (),
        { pins := mark_pins s.pins ps false, leases := eraseA s.leases u }) := by
  rw [show s.release u = match lookupA s.leases u with
      | none => (Except.error GpioError.LeaseNotFound, s)
      | some lease =>
        (Except.ok (),
          ({ pins := mark_pins s.pins lease false,
             leases := eraseA s.leases u } : GpioBorrowChecker)) from rfl,
    h]

/-! ## Preservation of the lease invariant (claim C1 machinery) -/

theorem checkerInv_borrow_many (s : GpioBorrowChecker) (ps : List Nat) (u : Nat)
    (hInv : CheckerInv s) (hfresh : containsA s.leases u = false) :
    CheckerInv (s.borrow_many ps u).2 := by
  obtain ⟨⟨hndP, hndL⟩, hExist, hMatch, hDisj⟩ := hInv
  cases hchk : borrow_check s ps with
  | some e =>
    rw [borrow_many_of_check_some s ps u e hchk]
    exact ⟨⟨hndP, hndL⟩, hExist, hMatch, hDisj⟩
  | none =>
    rw [borrow_many_of_check_none s ps u hchk]
    have hall : ∀ p ∈ ps, ∃ st, lookupA s.pins p = some st ∧ st.leased = false :=
      (borrow_check_none_iff s ps).mp hchk
    have hnoneU : lookupA s.leases u = none := lookupA_eq_none_of_not_contains hfresh
    have hlookU : lookupA (insertA s.leases u ps) u = some ps := lookupA_insertA_self _ _ _
    have hlookN : ∀ id, id ≠ u →
        lookupA (insertA s.leases u ps) id = lookupA s.leases id :=
      fun id hid => lookupA_insertA_ne _ _ _ _ hid
    refine ⟨⟨?_, ?_⟩, ?_, ?_, ?_⟩
    · rw [keysA_mark_pins]
      exact hndP
    · rw [insertA_of_fresh _ _ _ hfresh]
      unfold keysA
      rw [List.map_append]
      rw [List.nodup_append]
      refine ⟨hndL, List.nodup_singleton _, ?_⟩
      intro a ha hb
      have : a = u := by simpa using hb
      subst this
      exact (containsA_eq_false_iff_keys _ _).mp hfresh ha
    · intro id qs hq p hp
      rw [containsA_mark_pins]
      by_cases hid : id = u
      · subst hid
        rw [hlookU] at hq
        injection hq with hq
        subst hq
        obtain ⟨st, hst, _⟩ := hall p hp
        simp [containsA, hst]
      · rw [hlookN id hid] at hq
        exact hExist id qs hq p hp
    · intro p st' hst'
      rw [lookupA_mark_pins] at hst'
      by_cases hp : p ∈ ps
      · rw [if_pos hp] at hst'
        cases hlp : lookupA s.pins p with
        | none => rw [hlp] at hst'; exact absurd hst' (by simp)
        | some st =>
          rw [hlp] at hst'
          injection hst' with hst'
          subst hst'
          constructor
          · intro _
            exact ⟨u, ps, hlookU, hp⟩
          · intro _
            rfl
      · rw [if_neg hp] at hst'
        rw [hMatch p st' hst']
        constructor
        · rintro ⟨id, qs, hq, hpq⟩
          have hid : id ≠ u := by
            intro h
            subst h
            rw [hnoneU] at hq
            exact absurd hq (by simp)
          exact ⟨id, qs, (hlookN id hid).symm ▸ hq, hpq⟩
        · rintro ⟨id, qs, hq, hpq⟩
          by_cases hid : id = u
          · subst hid
            rw [hlookU] at hq
            injection hq with hq
            subst hq
            exact absurd hpq hp
          · rw [hlookN id hid] at hq
            exact ⟨id, qs, hq, hpq⟩
    · intro id1 qs1 id2 qs2 p h1 h2 hp1 hp2
      by_cases hi1 : id1 = u <;> by_cases hi2 : id2 = u
      · rw [hi1, hi2]
      · subst hi1
        rw [hlookU] at h1
        injection h1 with h1
        subst h1
        rw [hlookN id2 hi2] at h2
        obtain ⟨st, hst, hfree⟩ := hall p hp1
        have : st.leased = true := (hMatch p st hst).mpr ⟨id2, qs2, h2, hp2⟩
        rw [this] at hfree
        exact absurd hfree (by simp)
      · subst hi2
        rw [hlookU] at h2
        injection h2 with h2
        subst h2
        rw [hlookN id1 hi1] at h1
        obtain ⟨st, hst, hfree⟩ := hall p hp2
        have : st.leased = true := (hMatch p st hst).mpr ⟨id1, qs1, h1, hp1⟩
        rw [this] at hfree
        exact absurd hfree (by simp)
      · rw [hlookN id1 hi1] at h1
        rw [hlookN id2 hi2] at h2
        exact hDisj id1 qs1 id2 qs2 p h1 h2 hp1 hp2

theorem checkerInv_release (s : GpioBorrowChecker) (u : Nat) (hInv : CheckerInv s) :
    CheckerInv (s.release u).2 := by
  obtain ⟨⟨hndP, hndL⟩, hExist, hMatch, hDisj⟩ := hInv
  cases hl : lookupA s.leases u with
  | none =>
    rw [release_of_lookup_none s u hl]
    exact ⟨⟨hndP, hndL⟩, hExist, hMatch, hDisj⟩
  | some ps =>
    rw [release_of_lookup_some s u ps hl]
    have hlookE : ∀ id, lookupA (eraseA s.leases u) id =
        if id = u then none else lookupA s.leases id :=
      fun id => lookupA_eraseA _ _ _
    refine ⟨⟨?_, ?_⟩, ?_, ?_, ?_⟩
    · rw [keysA_mark_pins]
      exact hndP
    · rw [keysA_eraseA]
      exact hndL.filter _
    · intro id qs hq p hp
      rw [containsA_mark_pins]
      rw [hlookE id] at hq
      by_cases hid : id = u
      · rw [if_pos hid] at hq
        exact absurd hq (by simp)
      · rw [if_neg hid] at hq
        exact hExist id qs hq p hp
    · intro p st' hst'
      rw [lookupA_mark_pins] at hst'
      by_cases hp : p ∈ ps
      · rw [if_pos hp] at hst'
        cases hlp : lookupA s.pins p with
        | none => rw [hlp] at hst'; exact absurd hst' (by simp)
        | some st =>
          rw [hlp] at hst'
          injection hst' with hst'
          subst hst'
          constructor
          · intro hcontra
            exact absurd hcontra (by simp)
          · rintro ⟨id, qs, hq, hpq⟩
            rw [hlookE id] at hq
            by_cases hid : id = u
            · rw [if_pos hid] at hq
              exact absurd hq (by simp)
            · rw [if_neg hid] at hq
              exact absurd (hDisj id qs u ps p hq hl hpq hp) hid
      · rw [if_neg hp] at hst'
        rw [hMatch p st' hst']
        constructor
        · rintro ⟨id, qs, hq, hpq⟩
          have hid : id ≠ u := by
            intro h
            subst h
            rw [hl] at hq
            injection hq with hq
            subst hq
            exact hp hpq
          refine ⟨id, qs, ?_, hpq⟩
          rw [hlookE id, if_neg hid]
          exact hq
        · rintro ⟨id, qs, hq, hpq⟩
          rw [hlookE id] at hq
          by_cases hid : id = u
          · rw [if_pos hid] at hq
            exact absurd hq (by simp)
          · rw [if_neg hid] at hq
            exact ⟨id, qs, hq, hpq⟩
    · intro id1 qs1 id2 qs2 p h1 h2 hp1 hp2
      rw [hlookE id1] at h1
      rw [hlookE id2] at h2
      by_cases hi1 : id1 = u
      · rw [if_pos hi1] at h1
        exact absurd h1 (by simp)
      · rw [if_neg hi1] at h1
        by_cases hi2 : id2 = u
        · rw [if_pos hi2] at h2
          exact absurd h2 (by simp)
        · rw [if_neg hi2] at h2
          exact hDisj id1 qs1 id2 qs2 p h1 h2 hp1 hp2

theorem checkerInv_applyOp (s : GpioBorrowChecker) (op : GpioOp) (hInv : CheckerInv s)
    (hfresh : (match op with
      | GpioOp.borrowOne _ u => !containsA s.leases u
      | GpioOp.borrowMany _ u => !containsA s.leases u
      | GpioOp.releaseOp _ => true) = true) :
    CheckerInv (applyOp s op) := by
  cases op with
  | borrowOne p u =>
    exact checkerInv_borrow_many s [p] u hInv (by simpa using hfresh)
  | borrowMany ps u =>
    exact checkerInv_borrow_many s ps u hInv (by simpa using hfresh)
  | releaseOp u =>
    exact checkerInv_release s u hInv

theorem checkerInv_runOps (ops : List GpioOp) :
    ∀ s : GpioBorrowChecker, CheckerInv s → freshRun s ops = true →
      CheckerInv (runOps s ops) := by
  induction ops with
  | nil =>
    intro s hInv _
    exact hInv
  | cons op rest ih =>
    intro s hInv hF
    unfold freshRun at hF
    rw [Bool.and_eq_true] at hF
    exact ih (applyOp s op) (checkerInv_applyOp s op hInv hF.1) hF.2

theorem checkerInv_mkChecker (cfg : List (Nat × Nat))
    (hnd : (cfg.map Prod.fst).Nodup) : CheckerInv (mkChecker cfg) := by
  refine ⟨⟨?_, ?_⟩, ?_, ?_, ?_⟩
  · unfold mkChecker GpioBorrowChecker.new keysA
    rw [List.map_map]
    exact hnd
  · exact List.nodup_nil
  · intro id qs hq
    exact absurd hq (by simp [mkChecker, GpioBorrowChecker.new, lookupA])
  · intro p st hst
    have hmem := lookupA_mem hst
    simp only [mkChecker, GpioBorrowChecker.new, List.mem_map] at hmem
    obtain ⟨pc, _, hpc⟩ := hmem
    injection hpc with h1 h2
    constructor
    · intro hcontra
      rw [← h2] at hcontra
      exact absurd hcontra (by simp [PinState.new])
    · rintro ⟨id, qs, hq, _⟩
      exact absurd hq (by simp [mkChecker, GpioBorrowChecker.new, lookupA])
  · intro id1 qs1 id2 qs2 p h1
    exact absurd h1 (by simp [mkChecker, GpioBorrowChecker.new, lookupA])

/-! ## Reduction equations for the device server operations -/

theorem register_device_duplicate {σ : Type} (impl : DriverImpl σ) (s : DeviceServer σ)
    (device : DeviceRec σ) (b : Bool) (h : containsA s.devices device.address = true) :
    register_device impl s device b =
      (some (DeviceError.DuplicateDevice
        ("device with address " ++ toString device.address ++ " already registered")), s) := by
  unfold register_device
  rw [if_pos h]

theorem register_device_start_err {σ : Type} (impl : DriverImpl σ) (s : DeviceServer σ)
    (device : DeviceRec σ) (e : DeviceError) (d2 : σ)
    (h1 : containsA s.devices device.address = false)
    (h2 : impl.is_running device.driver = false)
    (h3 : impl.start device.driver s.bus_controllers = (some e, d2)) :
    register_device impl s device true = (some e, s) := by
  unfold register_device
  rw [if_neg (by rw [h1]; simp), if_pos (by rw [h2]; rfl), h3]

theorem register_device_start_ok {σ : Type} (impl : DriverImpl σ) (s : DeviceServer σ)
    (device : DeviceRec σ) (d2 : σ)
    (h1 : containsA s.devices device.address = false)
    (h2 : impl.is_running device.driver = false)
    (h3 : impl.start device.driver s.bus_controllers = (none, d2)) :
    register_device impl s device true =
      (none, { s with
        devices := insertA s.devices device.address { device with driver := d2 } }) := by
  unfold register_device
  rw [if_neg (by rw [h1]; simp), if_pos (by rw [h2]; rfl), h3]

theorem register_device_no_start {σ : Type} (impl : DriverImpl σ) (s : DeviceServer σ)
    (device : DeviceRec σ) (b : Bool)
    (h1 : containsA s.devices device.address = false)
    (h2 : (b && !(impl.is_running device.driver)) = false) :
    register_device impl s device b =
      (none, { s with devices := insertA s.devices device.address device }) := by
  unfold register_device
  rw [if_neg (by rw [h1]; simp), if_neg (by rw [h2]; simp)]

theorem start_device_notfound {σ : Type} (impl : DriverImpl σ) (s : DeviceServer σ)
    (address : Nat) (h : lookupA s.devices address = none) :
    start_device impl s address = (some (DeviceError.NotFound address), s) := by
  unfold start_device
  rw [h]

theorem start_device_running {σ : Type} (impl : DriverImpl σ) (s : DeviceServer σ)
    (address : Nat) (d : DeviceRec σ) (h : lookupA s.devices address = some d)
    (hr : impl.is_running d.driver = true) :
    start_device impl s address =
      (some (DeviceError.InvalidOperation "device is already running"), s) := by
  unfold start_device
  rw [h]
  simp only [hr, if_pos]

theorem start_device_go {σ : Type} (impl : DriverImpl σ) (s : DeviceServer σ)
    (address : Nat) (d : DeviceRec σ) (h : lookupA s.devices address = some d)
    (hr : impl.is_running d.driver = false) :
    start_device impl s address =
      ((impl.start d.driver s.bus_controllers).1,
        { s with
          devices := insertA s.devices address { d with driver := (impl.start d.driver s.bus_controllers).2 } }) := by
  unfold start_device
  rw [h]
  simp only [hr, if_neg, Bool.false_eq_true, not_false_iff, if_false]

theorem stop_device_notfound {σ : Type} (impl : DriverImpl σ) (s : DeviceServer σ)
    (address : Nat) (h : lookupA s.devices address = none) :
    stop_device impl s address = (some (DeviceError.NotFound address), s) := by
  unfold stop_device
  rw [h]

theorem stop_device_not_running {σ : Type} (impl : DriverImpl σ) (s : DeviceServer σ)
    (address : Nat) (d : DeviceRec σ) (h : lookupA s.devices address = some d)
    (hr : impl.is_running d.driver = false) :
    stop_device impl s address =
      (some (DeviceError.InvalidOperation "device is not currently running"), s) := by
  unfold stop_device
  rw [h]
  simp only [hr, Bool.not_false, if_pos]

theorem stop_device_go {σ : Type} (impl : DriverImpl σ) (s : DeviceServer σ)
    (address : Nat) (d : DeviceRec σ) (h : lookupA s.devices address = some d)
    (hr : impl.is_running d.driver = true) :
    stop_device impl s address =
      ((impl.stop d.driver s.bus_controllers).1,
        { s with
          devices := insertA s.devices address { d with driver := (impl.stop d.driver s.bus_controllers).2 } }) := by
  unfold stop_device
  rw [h]
  simp only [hr, Bool.not_true, Bool.false_eq_true, not_false_iff, if_false]

theorem remove_device_notfound {σ : Type} (impl : DriverImpl σ) (s : DeviceServer σ)
    (address : Nat) (h : lookupA s.devices address = none) :
    remove_device impl s address = (some (DeviceError.NotFound address), s) := by
  unfold remove_device
  rw [h]

theorem remove_device_stop_err {σ : Type} (impl : DriverImpl σ) (s : DeviceServer σ)
    (address : Nat) (d : DeviceRec σ) (e : DeviceError) (d2 : σ)
    (h : lookupA s.devices address = some d)
    (hr : impl.is_running d.driver = true)
    (hs : impl.stop d.driver s.bus_controllers = (some e, d2)) :
    remove_device impl s address =
      (some e, { s with devices := insertA s.devices address { d with driver := d2 } }) := by
  unfold remove_device
  rw [h]
  simp only [hr, if_pos]
  rw [hs]

theorem remove_device_stop_ok {σ : Type} (impl : DriverImpl σ) (s : DeviceServer σ)
    (address : Nat) (d : DeviceRec σ) (d2 : σ)
    (h : lookupA s.devices address = some d)
    (hr : impl.is_running d.driver = true)
    (hs : impl.stop d.driver s.bus_controllers = (none, d2)) :
    remove_device impl s address =
      (none, { s with
        devices := eraseA (insertA s.devices address { d with driver := d2 }) address }) := by
  unfold remove_device
  rw [h]
  simp only [hr, if_pos]
  rw [hs]

theorem remove_device_idle {σ : Type} (impl : DriverImpl σ) (s : DeviceServer σ)
    (address : Nat) (d : DeviceRec σ)
    (h : lookupA s.devices address = some d)
    (hr : impl.is_running d.driver = false) :
    remove_device impl s address =
      (none, { s with devices := eraseA s.devices address }) := by
  unfold remove_device
  rw [h]
  simp only [hr, Bool.false_eq_true, not_false_iff, if_false]

/-! ## Facts about the repository's drivers -/

theorem tdriver_start_none_running (d : TDriver) (bs : List String)
    (h : (tdriverImpl.start d bs).1 = none) :
    tdriverImpl.is_running (tdriverImpl.start d bs).2 = true := by
  cases d with
  | noCap l => rfl
  | funD l hc =>
    by_cases hb : "FUN" ∈ bs
    · simp [tdriverImpl, hb, TDriver.loaded]
    · simp [tdriverImpl, hb] at h
  | sleepy l r => rfl
  | dummyLed l => rfl

theorem tdriver_stop_ok (d : TDriver) (bs : List String) :
    (tdriverImpl.stop d bs).1 = none ∧
      tdriverImpl.is_running (tdriverImpl.stop d bs).2 = false := by
  cases d <;> exact ⟨rfl, rfl⟩

/-! ## Facts about the FUN device -/

theorem increase_fun_of_lt (n : Nat) (h : n < 10) :
    increase_fun n = (some (n + 1), n + 1) := by
  unfold increase_fun
  rw [if_neg (by omega)]

theorem increase_fun_of_ge (n : Nat) (h : 10 ≤ n) : increase_fun n = (none, n) := by
  unfold increase_fun
  rw [if_pos h]

theorem have_fun_of_lt (n : Nat) (h : n < 10) :
    have_fun n =
      if n + 1 < 3 then (some "slightly fun", n + 1)
      else if 3 ≤ n + 1 ∧ n + 1 < 7 then (some "pretty fun", n + 1)
      else if 7 ≤ n + 1 ∧ n + 1 ≤ 10 then (some "very fun", n + 1)
      else (none, n + 1) := by
  rw [show have_fun n = match increase_fun n with
      | (none, c) => (some "had too much fun!", c)
      | (some k, c) =>
        if k < 3 then (some "slightly fun", c)
        else if 3 ≤ k ∧ k < 7 then (some "pretty fun", c)
        else if 7 ≤ k ∧ k ≤ 10 then (some "very fun", c)
        else (none, c) from rfl,
    increase_fun_of_lt n h]

theorem have_fun_of_ge (n : Nat) (h : 10 ≤ n) :
    have_fun n = (some "had too much fun!", n) := by
  rw [show have_fun n = match increase_fun n with
      | (none, c) => (some "had too much fun!", c)
      | (some k, c) =>
        if k < 3 then (some "slightly fun", c)
        else if 3 ≤ k ∧ k < 7 then (some "pretty fun", c)
        else if 7 ≤ k ∧ k ≤ 10 then (some "very fun", c)
        else (none, c) from rfl,
    increase_fun_of_ge n h]

theorem fun_count_after_eq (n : Nat) : fun_count_after n = min n 10 := by
  induction n with
  | zero => rfl
  | succ n ih =>
    unfold fun_count_after
    rw [ih]
    by_cases h : 10 ≤ n
    · rw [Nat.min_eq_right h, have_fun_of_ge 10 (le_refl 10)]
      rw [Nat.min_eq_right (by omega)]
    · have hlt : n < 10 := by omega
      rw [Nat.min_eq_left (by omega), have_fun_of_lt n hlt,
        Nat.min_eq_left (by omega)]
      split_ifs <;> rfl

/-! ## Remaining helper lemmas -/

theorem eraseA_fresh {α : Type} (l : List (Nat × α)) (k : Nat)
    (h : containsA l k = false) : eraseA l k = l := by
  unfold eraseA
  apply List.filter_eq_self.mpr
  intro kv hkv
  simpa using (containsA_eq_false_iff l k).mp h kv hkv

theorem containsA_eraseA_self {α : Type} (l : List (Nat × α)) (k : Nat) :
    containsA (eraseA l k) k = false := by
  unfold containsA
  rw [lookupA_eraseA]
  simp

theorem borrow_many_isOk (s : GpioBorrowChecker) (qs : List Nat) (u : Nat) :
    (s.borrow_many qs u).1.isOk = s.can_borrow_many qs := by
  cases hchk : borrow_check s qs with
  | none =>
    rw [borrow_many_of_check_none s qs u hchk]
    exact ((can_borrow_many_iff_check s qs).mpr hchk).symm
  | some e =>
    rw [borrow_many_of_check_some s qs u e hchk]
    cases hcan : s.can_borrow_many qs with
    | false => rfl
    | true =>
      rw [(can_borrow_many_iff_check s qs).mp hcan] at hchk
      exact absurd hchk (by simp)

theorem i2c_close_of_none (s : I2CBusController) (b : Nat)
    (h : lookupA s.owned_buses b = none) :
    s.close b = (Except.error I2CError.LeaseNotFound, s) := by
  rw [show s.close b = match lookupA s.owned_buses b with
      | none => (Except.error I2CError.LeaseNotFound, s)
      | some info =>
        if info.rc > 1 then (Except.error (I2CError.ChannelBusy b), s)
        else
          match s.gpio_borrow.release info.lease_id with
          | (Except.error e, g) =>
            (Except.error (I2CError.HardwareError (gpioErrorMessage e)),
              { s with gpio_borrow := g })
          | (Except.ok _, g) =>
            (Except.ok (),
              ({ pin_config := s.pin_config, owned_buses := eraseA s.owned_buses b,
                 gpio_borrow := g } : I2CBusController)) from rfl,
    h]

theorem i2c_close_of_busy (s : I2CBusController) (b : Nat) (info : I2cInfo)
    (h : lookupA s.owned_buses b = some info) (hrc : 1 < info.rc) :
    s.close b = (Except.error (I2CError.ChannelBusy b), s) := by
  rw [show s.close b = match lookupA s.owned_buses b with
      | none => (Except.error I2CError.LeaseNotFound, s)
      | some info =>
        if info.rc > 1 then (Except.error (I2CError.ChannelBusy b), s)
        else
          match s.gpio_borrow.release info.lease_id with
          | (Except.error e, g) =>
            (Except.error (I2CError.HardwareError (gpioErrorMessage e)),
              { s with gpio_borrow := g })
          | (Except.ok _, g) =>
            (Except.ok (),
              ({ pin_config := s.pin_config, owned_buses := eraseA s.owned_buses b,
                 gpio_borrow := g } : I2CBusController)) from rfl,
    h]
  show (if info.rc > 1 then (Except.error (I2CError.ChannelBusy b), s)
    else
      match s.gpio_borrow.release info.lease_id with
      | (Except.error e, g) =>
        (Except.error (I2CError.HardwareError (gpioErrorMessage e)),
          { s with gpio_borrow := g })
      | (Except.ok _, g) =>
        (Except.ok (),
          ({ pin_config := s.pin_config, owned_buses := eraseA s.owned_buses b,
             gpio_borrow := g } : I2CBusController))) = _
  rw [if_pos hrc]

theorem i2c_close_of_last (s : I2CBusController) (b : Nat) (info : I2cInfo) (ps : List Nat)
    (h : lookupA s.owned_buses b = some info) (hrc : ¬1 < info.rc)
    (hl : lookupA s.gpio_borrow.leases info.lease_id = some ps) :
    s.close b =
      (Except.ok (),
        { pin_config := s.pin_config,
          owned_buses := eraseA s.owned_buses b,
          gpio_borrow :=
            { pins := mark_pins s.gpio_borrow.pins ps false,
              leases := eraseA s.gpio_borrow.leases info.lease_id } }) := by
  rw [show s.close b = match lookupA s.owned_buses b with
      | none => (Except.error I2CError.LeaseNotFound, s)
      | some info =>
        if info.rc > 1 then (Except.error (I2CError.ChannelBusy b), s)
        else
          match s.gpio_borrow.release info.lease_id with
          | (Except.error e, g) =>
            (Except.error (I2CError.HardwareError (gpioErrorMessage e)),
              { s with gpio_borrow := g })
          | (Except.ok _, g) =>
            (Except.ok (),
              ({ pin_config := s.pin_config, owned_buses := eraseA s.owned_buses b,
                 gpio_borrow := g } : I2CBusController)) from rfl,
    h]
  show (if info.rc > 1 then (Except.error (I2CError.ChannelBusy b), s)
    else
      match s.gpio_borrow.release info.lease_id with
      | (Except.error e, g) =>
        (Except.error (I2CError.HardwareError (gpioErrorMessage e)),
          { s with gpio_borrow := g })
      | (Except.ok _, g) =>
        (Except.ok (),
          ({ pin_config := s.pin_config, owned_buses := eraseA s.owned_buses b,
             gpio_borrow := g } : I2CBusController))) = _
  rw [if_neg hrc, release_of_lookup_some _ _ _ hl]

/-! ## Claim theorems -/

/-- C1: for every operation sequence run from a freshly constructed checker
(with distinct pin ids, and each borrow carrying a fresh v4 uuid), at every
point the set of pins whose `leased` flag is true equals the union of the pin
sets of the outstanding leases, and no pin belongs to two distinct leases. -/
theorem gpio_pin_lease_exclusivity (cfg : List (Nat × Nat)) (ops : List GpioOp)
    (hnd : (cfg.map Prod.fst).Nodup)
    (hfresh : freshRun (mkChecker cfg) ops = true) :
    LeasedMatchesLeases (runOps (mkChecker cfg) ops) ∧
      LeasesDisjoint (runOps (mkChecker cfg) ops) := by
  have h := checkerInv_runOps ops (mkChecker cfg) (checkerInv_mkChecker cfg hnd) hfresh
  exact ⟨h.2.2.1, h.2.2.2⟩

theorem gpio_pin_lease_exclusivity_witness :
    LeasedMatchesLeases
        (runOps (mkChecker cfgFive)
          [GpioOp.borrowMany [2, 3] 0, GpioOp.borrowMany [3, 5] 1,
           GpioOp.releaseOp 0, GpioOp.borrowMany [3, 5] 1]) ∧
      LeasesDisjoint
        (runOps (mkChecker cfgFive)
          [GpioOp.borrowMany [2, 3] 0, GpioOp.borrowMany [3, 5] 1,
           GpioOp.releaseOp 0, GpioOp.borrowMany [3, 5] 1]) :=
  gpio_pin_lease_exclusivity cfgFive
    [GpioOp.borrowMany [2, 3] 0, GpioOp.borrowMany [3, 5] 1,
     GpioOp.releaseOp 0, GpioOp.borrowMany [3, 5] 1]
    (by decide) (by decide)

/-- C2: a failing `borrow_many` leaves the checker state identical; the error
is `PinNotFound p` only for a requested pin `p` missing from the pool and
`Busy p` only for a requested pin `p` already leased, and no other error is
produced. The success/failure boundary is `can_borrow_many`, so any bad
requested pin forces an error. -/
theorem borrow_many_atomic_failure (s : GpioBorrowChecker) (ps : List Nat) (u : Nat)
    (e : GpioError) (h : (s.borrow_many ps u).1 = Except.error e) :
    (s.borrow_many ps u).2 = s ∧
      (match e with
        | GpioError.PinNotFound p => p ∈ ps ∧ s.has_pin p = false
        | GpioError.Busy p => p ∈ ps ∧ ∃ st, lookupA s.pins p = some st ∧ st.leased = true
        | _ => False) ∧
      s.can_borrow_many ps = false := by
  cases hchk : borrow_check s ps with
  | none =>
    rw [borrow_many_of_check_none s ps u hchk] at h
    exact absurd h (by simp)
  | some e2 =>
    rw [borrow_many_of_check_some s ps u e2 hchk] at h
    injection h with h
    subst h
    refine ⟨by rw [borrow_many_of_check_some s ps u e2 hchk], ?_, ?_⟩
    · rcases borrow_check_some_cases s ps e2 hchk with ⟨p, he, hp, hc⟩ | ⟨p, he, hp, hrest⟩
      · subst he
        exact ⟨hp, hc⟩
      · subst he
        exact ⟨hp, hrest⟩
    · cases hcan : s.can_borrow_many ps with
      | false => rfl
      | true =>
        rw [(can_borrow_many_iff_check s ps).mp hcan] at hchk
        exact absurd hchk (by simp)

theorem borrow_many_atomic_failure_witness :
    (((mkChecker cfgFive).borrow_many [2, 7] 0).2 = mkChecker cfgFive ∧
      (7 ∈ [2, 7] ∧ (mkChecker cfgFive).has_pin 7 = false) ∧
      (mkChecker cfgFive).can_borrow_many [2, 7] = false) ∧
    ((((mkChecker cfgFive).borrow_many [2, 3] 0).2.borrow_many [3, 5] 1).2 =
        ((mkChecker cfgFive).borrow_many [2, 3] 0).2 ∧
      (3 ∈ [3, 5] ∧ ∃ st,
        lookupA ((mkChecker cfgFive).borrow_many [2, 3] 0).2.pins 3 = some st ∧
          st.leased = true)) := by
  have h1 := borrow_many_atomic_failure (mkChecker cfgFive) [2, 7] 0
    (GpioError.PinNotFound 7) rfl
  have h2 := borrow_many_atomic_failure ((mkChecker cfgFive).borrow_many [2, 3] 0).2 [3, 5] 1
    (GpioError.Busy 3) rfl
  exact ⟨⟨h1.1, h1.2.1, h1.2.2⟩, h2.1, h2.2.1⟩

/-- C8: a successful `borrow_many` followed by `release` of the returned lease
restores the exact prior state, so every borrowed pin is unleased again, the
lease is gone, and any otherwise-free pins can be borrowed afterwards;
releasing an unknown lease id fails with `LeaseNotFound` and changes
nothing. -/
theorem borrow_release_round_trip (s : GpioBorrowChecker) (ps qs : List Nat) (u u2 u3 : Nat)
    (hnd : (keysA s.pins).Nodup)
    (hfresh : containsA s.leases u = false)
    (hok : (s.borrow_many ps u).1.isOk = true) :
    ((s.borrow_many ps u).2.release u = (Except.ok (), s)) ∧
    (∀ p ∈ ps, ∃ st,
      lookupA ((s.borrow_many ps u).2.release u).2.pins p = some st ∧ st.leased = false) ∧
    (((s.borrow_many ps u).2.release u).2.has_lease u = false) ∧
    (s.can_borrow_many qs = true →
      ((((s.borrow_many ps u).2.release u).2).borrow_many qs u2).1.isOk = true) ∧
    (containsA s.leases u3 = false →
      s.release u3 = (Except.error GpioError.LeaseNotFound, s)) := by
  have hchk : borrow_check s ps = none := by
    cases hchk : borrow_check s ps with
    | none => rfl
    | some e =>
      rw [borrow_many_of_check_some s ps u e hchk] at hok
      exact absurd hok (by simp [Except.isOk, Except.toBool])
  have hall := (borrow_check_none_iff s ps).mp hchk
  have hB := borrow_many_of_check_none s ps u hchk
  have hfree : ∀ p ∈ ps, ∀ st, lookupA s.pins p = some st → st.leased = false := by
    intro p hp st hst
    obtain ⟨st2, hst2, hfr⟩ := hall p hp
    rw [hst] at hst2
    injection hst2 with hst2
    rw [hst2]
    exact hfr
  have hlk : lookupA (insertA s.leases u ps) u = some ps := lookupA_insertA_self _ _ _
  have h1 : (s.borrow_many ps u).2 =
      { pins := mark_pins s.pins ps true, leases := insertA s.leases u ps } := by
    rw [hB]
  have hround : (s.borrow_many ps u).2.release u = (Except.ok (), s) := by
    rw [h1, release_of_lookup_some _ u ps hlk]
    show (Except.ok (),
      ({ pins := mark_pins (mark_pins s.pins ps true) ps false,
         leases := eraseA (insertA s.leases u ps) u } : GpioBorrowChecker)) = _
    rw [mark_pins_true_then_false s.pins ps hnd hfree, eraseA_insertA_self,
      eraseA_fresh s.leases u hfresh]
  refine ⟨hround, ?_, ?_, ?_, ?_⟩
  · intro p hp
    rw [hround]
    exact hall p hp
  · rw [hround]
    exact hfresh
  · intro hcan
    rw [hround]
    show ((s.borrow_many qs u2).1).isOk = true
    rw [borrow_many_isOk]
    exact hcan
  · intro h3
    exact release_of_lookup_none s u3 (lookupA_eq_none_of_not_contains h3)

theorem borrow_release_round_trip_witness :
    (((mkChecker cfgFive).borrow_many [2, 3] 0).2.release 0 = (Except.ok (), mkChecker cfgFive)) ∧
    (∀ p ∈ [2, 3], ∃ st,
      lookupA (((mkChecker cfgFive).borrow_many [2, 3] 0).2.release 0).2.pins p = some st ∧
        st.leased = false) ∧
    ((((mkChecker cfgFive).borrow_many [2, 3] 0).2.release 0).2.has_lease 0 = false) ∧
    (((((mkChecker cfgFive).borrow_many [2, 3] 0).2.release 0).2).borrow_many [3, 5] 1).1.isOk =
      true ∧
    (mkChecker cfgFive).release 99 =
      (Except.error GpioError.LeaseNotFound, mkChecker cfgFive) := by
  have h := borrow_release_round_trip (mkChecker cfgFive) [2, 3] [3, 5] 0 1 99
    (by decide) (by decide) (by decide)
  exact ⟨h.1, h.2.1, h.2.2.1, h.2.2.2.1 (by decide), h.2.2.2.2 (by decide)⟩

/-- C10: `borrow_many` on the empty pin list always succeeds: it returns the
generated lease id, records an empty pin set for it (visible via `has_lease`),
leaves every pin state untouched, and a later `release` of the id succeeds. -/
theorem borrow_many_empty_succeeds (s : GpioBorrowChecker) (u : Nat) :
    s.borrow_many [] u = (Except.ok u, { pins := s.pins, leases := insertA s.leases u [] }) ∧
    lookupA (s.borrow_many [] u).2.leases u = some [] ∧
    (s.borrow_many [] u).2.has_lease u = true ∧
    (s.borrow_many [] u).2.pins = s.pins ∧
    ((s.borrow_many [] u).2.release u).1 = Except.ok () := by
  have hB := borrow_many_of_check_none s [] u rfl
  have h1 : (s.borrow_many [] u).2 =
      ({ pins := s.pins, leases := insertA s.leases u [] } : GpioBorrowChecker) := by
    rw [hB]
    rfl
  have hlk : lookupA (s.borrow_many [] u).2.leases u = some [] := by
    rw [h1]
    exact lookupA_insertA_self _ _ _
  refine ⟨by rw [hB]; rfl, hlk, ?_, by rw [h1], ?_⟩
  · show containsA (s.borrow_many [] u).2.leases u = true
    unfold containsA
    rw [hlk]
    rfl
  · rw [release_of_lookup_some _ u [] hlk]

/-- C3: contrary to the claim, `register_device` checks only the address for
collisions. Registering a second device whose name equals an existing record's
name but whose address is fresh succeeds, leaving two records with the same
name — the repository's own `ds_duplicate_name_check` test expects this
registration to fail. Address collisions are rejected as the claim states. -/
theorem register_device_ignores_duplicate_names :
    (register_device tdriverImpl dupNameServer dupNameDevice false).1 = none ∧
    ((register_device tdriverImpl dupNameServer dupNameDevice false).2.devices.map
      (fun kv => kv.2.name)) = ["some_device", "some_device"] ∧
    (register_device tdriverImpl dupNameServer
        { address := 1, name := "fresh_name", driver := TDriver.sleepy false false } false).1 =
      some (DeviceError.DuplicateDevice "device with address 1 already registered") := by
  refine ⟨rfl, rfl, rfl⟩

/-- C4: `start_device`/`stop_device` on an absent address return `NotFound`;
starting a running device or stopping a non-running one returns
`InvalidOperation` and changes nothing; after a successful `start_device` the
stored device is running and after a successful `stop_device` it is not
(over the repository's drivers). -/
theorem device_lifecycle_transitions (s : DeviceServer TDriver) (a : Nat) :
    (lookupA s.devices a = none →
      start_device tdriverImpl s a = (some (DeviceError.NotFound a), s) ∧
      stop_device tdriverImpl s a = (some (DeviceError.NotFound a), s)) ∧
    (∀ d, lookupA s.devices a = some d → tdriverImpl.is_running d.driver = true →
      start_device tdriverImpl s a =
        (some (DeviceError.InvalidOperation "device is already running"), s)) ∧
    (∀ d, lookupA s.devices a = some d → tdriverImpl.is_running d.driver = false →
      stop_device tdriverImpl s a =
        (some (DeviceError.InvalidOperation "device is not currently running"), s)) ∧
    ((start_device tdriverImpl s a).1 = none →
      ∃ d2, lookupA (start_device tdriverImpl s a).2.devices a = some d2 ∧
        tdriverImpl.is_running d2.driver = true) ∧
    ((stop_device tdriverImpl s a).1 = none →
      ∃ d2, lookupA (stop_device tdriverImpl s a).2.devices a = some d2 ∧
        tdriverImpl.is_running d2.driver = false) := by
  refine ⟨?_, ?_, ?_, ?_, ?_⟩
  · intro h
    exact ⟨start_device_notfound tdriverImpl s a h, stop_device_notfound tdriverImpl s a h⟩
  · intro d hd hr
    exact start_device_running tdriverImpl s a d hd hr
  · intro d hd hr
    exact stop_device_not_running tdriverImpl s a d hd hr
  · intro h
    cases hl : lookupA s.devices a with
    | none =>
      rw [start_device_notfound tdriverImpl s a hl] at h
      exact absurd h (by simp)
    | some d =>
      cases hr : tdriverImpl.is_running d.driver with
      | true =>
        rw [start_device_running tdriverImpl s a d hl hr] at h
        exact absurd h (by simp)
      | false =>
        have hgo := start_device_go tdriverImpl s a d hl hr
        rw [hgo] at h ⊢
        refine ⟨{ d with driver := (tdriverImpl.start d.driver s.bus_controllers).2 }, ?_, ?_⟩
        · exact lookupA_insertA_self _ _ _
        · exact tdriver_start_none_running d.driver s.bus_controllers h
  · intro h
    cases hl : lookupA s.devices a with
    | none =>
      rw [stop_device_notfound tdriverImpl s a hl] at h
      exact absurd h (by simp)
    | some d =>
      cases hr : tdriverImpl.is_running d.driver with
      | false =>
        rw [stop_device_not_running tdriverImpl s a d hl hr] at h
        exact absurd h (by simp)
      | true =>
        have hgo := stop_device_go tdriverImpl s a d hl hr
        rw [hgo] at h ⊢
        refine ⟨{ d with driver := (tdriverImpl.stop d.driver s.bus_controllers).2 }, ?_, ?_⟩
        · exact lookupA_insertA_self _ _ _
        · exact (tdriver_stop_ok d.driver s.bus_controllers).2

theorem device_lifecycle_transitions_witness :
    (start_device tdriverImpl emptyServerT 5 =
      (some (DeviceError.NotFound 5), emptyServerT)) ∧
    (start_device tdriverImpl serverRunning 1 =
      (some (DeviceError.InvalidOperation "device is already running"), serverRunning)) ∧
    (stop_device tdriverImpl serverIdle 2 =
      (some (DeviceError.InvalidOperation "device is not currently running"), serverIdle)) ∧
    (∃ d2, lookupA (start_device tdriverImpl serverIdle 2).2.devices 2 = some d2 ∧
      tdriverImpl.is_running d2.driver = true) ∧
    (∃ d2, lookupA (stop_device tdriverImpl serverRunning 1).2.devices 1 = some d2 ∧
      tdriverImpl.is_running d2.driver = false) := by
  have h0 := device_lifecycle_transitions emptyServerT 5
  have h1 := device_lifecycle_transitions serverRunning 1
  have h2 := device_lifecycle_transitions serverIdle 2
  exact ⟨(h0.1 rfl).1,
    h1.2.1 { address := 1, name := "d1", driver := TDriver.sleepy true false } rfl rfl,
    h2.2.2.1 { address := 2, name := "d2", driver := TDriver.sleepy false false } rfl rfl,
    h2.2.2.2.1 rfl, h1.2.2.2.2 rfl⟩

/-- C5: registering a non-running device with `start_immediately = true` whose
driver `start` fails returns the driver's error and leaves the server exactly
as it was — the device is not recorded. -/
theorem register_start_error_aborts_registration {σ : Type} (impl : DriverImpl σ)
    (s : DeviceServer σ) (device : DeviceRec σ) (e : DeviceError) (d2 : σ)
    (h1 : containsA s.devices device.address = false)
    (h2 : impl.is_running device.driver = false)
    (h3 : impl.start device.driver s.bus_controllers = (some e, d2)) :
    register_device impl s device true = (some e, s) :=
  register_device_start_err impl s device e d2 h1 h2 h3

theorem register_start_error_aborts_registration_witness :
    register_device tdriverImpl emptyServerT
        { address := 7, name := "fun-7", driver := TDriver.funD false false } true =
      (some (DeviceError.MissingController "FUN"), emptyServerT) :=
  register_start_error_aborts_registration tdriverImpl emptyServerT
    { address := 7, name := "fun-7", driver := TDriver.funD false false }
    (DeviceError.MissingController "FUN") (TDriver.funD true false) rfl rfl rfl

/-- C7: `remove_device` on an absent address returns `NotFound`; on a running
device it calls the driver's `stop` — a `stop` error is returned and the record
stays registered (with its driver state updated in place); on success, or when
the device is not running, the record is evicted with `Ok`. -/
theorem remove_device_stop_policy {σ : Type} (impl : DriverImpl σ) (s : DeviceServer σ)
    (a : Nat) :
    (lookupA s.devices a = none →
      remove_device impl s a = (some (DeviceError.NotFound a), s)) ∧
    (∀ d e d2, lookupA s.devices a = some d → impl.is_running d.driver = true →
      impl.stop d.driver s.bus_controllers = (some e, d2) →
      (remove_device impl s a).1 = some e ∧
        lookupA (remove_device impl s a).2.devices a = some { d with driver := d2 }) ∧
    (∀ d d2, lookupA s.devices a = some d → impl.is_running d.driver = true →
      impl.stop d.driver s.bus_controllers = (none, d2) →
      remove_device impl s a = (none, { s with devices := eraseA s.devices a })) ∧
    (∀ d, lookupA s.devices a = some d → impl.is_running d.driver = false →
      remove_device impl s a = (none, { s with devices := eraseA s.devices a })) := by
  refine ⟨?_, ?_, ?_, ?_⟩
  · intro h
    exact remove_device_notfound impl s a h
  · intro d e d2 hd hr hs
    rw [remove_device_stop_err impl s a d e d2 hd hr hs]
    exact ⟨rfl, lookupA_insertA_self _ _ _⟩
  · intro d d2 hd hr hs
    rw [remove_device_stop_ok impl s a d d2 hd hr hs, eraseA_insertA_self]
  · intro d hd hr
    exact remove_device_idle impl s a d hd hr

theorem remove_device_stop_policy_witness :
    (remove_device tdriverImpl emptyServerT 5 =
      (some (DeviceError.NotFound 5), emptyServerT)) ∧
    ((remove_device flakyImpl serverFlaky 3).1 =
        some (DeviceError.HardwareError "stop failed") ∧
      lookupA (remove_device flakyImpl serverFlaky 3).2.devices 3 =
        some { address := 3, name := "flaky-3", driver := true }) ∧
    (remove_device tdriverImpl serverRunning 1 =
      (none, { serverRunning with devices := eraseA serverRunning.devices 1 })) := by
  have h0 := remove_device_stop_policy tdriverImpl emptyServerT 5
  have h1 := remove_device_stop_policy flakyImpl serverFlaky 3
  have h2 := remove_device_stop_policy tdriverImpl serverRunning 1
  exact ⟨h0.1 rfl, h1.2.1 _ _ _ rfl rfl rfl, h2.2.2.1 _ _ rfl rfl rfl⟩

/-- C6: `I2CBusController::close` of an unopened bus id returns
`LeaseNotFound`; while the shared handle's strong count exceeds one it returns
`ChannelBusy` and changes nothing; when the controller holds the only copy it
releases the two-pin lease (both pins unleased, lease dropped) and removes the
bus from the owned map. -/
theorem i2c_close_refcount (s : I2CBusController) (b : Nat) :
    (lookupA s.owned_buses b = none →
      s.close b = (Except.error I2CError.LeaseNotFound, s)) ∧
    (∀ info, lookupA s.owned_buses b = some info → 1 < info.rc →
      s.close b = (Except.error (I2CError.ChannelBusy b), s)) ∧
    (∀ info sda scl, lookupA s.owned_buses b = some info → info.rc = 1 →
      lookupA s.gpio_borrow.leases info.lease_id = some [sda, scl] →
      (s.close b).1 = Except.ok () ∧
      (s.close b).2.owned_buses = eraseA s.owned_buses b ∧
      containsA (s.close b).2.gpio_borrow.leases info.lease_id = false ∧
      (∀ p, p = sda ∨ p = scl →
        lookupA (s.close b).2.gpio_borrow.pins p =
          (lookupA s.gpio_borrow.pins p).map (fun st => { st with leased := false }))) := by
  refine ⟨?_, ?_, ?_⟩
  · intro h
    exact i2c_close_of_none s b h
  · intro info h hrc
    exact i2c_close_of_busy s b info h hrc
  · intro info sda scl h hrc hl
    have hclose := i2c_close_of_last s b info [sda, scl] h (by omega) hl
    rw [hclose]
    refine ⟨rfl, rfl, ?_, ?_⟩
    · exact containsA_eraseA_self _ _
    · intro p hp
      show lookupA (mark_pins s.gpio_borrow.pins [sda, scl] false) p = _
      rw [lookupA_mark_pins, if_pos (by rcases hp with h | h <;> simp [h])]

theorem i2c_close_refcount_witness :
    ((i2cCtlFixture 1).close 9 = (Except.error I2CError.LeaseNotFound, i2cCtlFixture 1)) ∧
    ((i2cCtlFixture 2).close 1 = (Except.error (I2CError.ChannelBusy 1), i2cCtlFixture 2)) ∧
    (((i2cCtlFixture 1).close 1).1 = Except.ok () ∧
      ((i2cCtlFixture 1).close 1).2.owned_buses = eraseA (i2cCtlFixture 1).owned_buses 1 ∧
      containsA ((i2cCtlFixture 1).close 1).2.gpio_borrow.leases 42 = false ∧
      (∀ p, p = 2 ∨ p = 3 →
        lookupA ((i2cCtlFixture 1).close 1).2.gpio_borrow.pins p =
          (lookupA (i2cCtlFixture 1).gpio_borrow.pins p).map
            (fun st => { st with leased := false }))) := by
  have h1 := i2c_close_refcount (i2cCtlFixture 1) 9
  have h2 := i2c_close_refcount (i2cCtlFixture 2) 1
  have h3 := i2c_close_refcount (i2cCtlFixture 1) 1
  exact ⟨h1.1 rfl,
    h2.2.1 { bus_id := 1, lease_id := 42, rc := 2 } rfl (by decide),
    h3.2.2 { bus_id := 1, lease_id := 42, rc := 1 } 2 3 rfl rfl rfl⟩

/-- C9: from a fresh FUN controller, the `n`-th `have_fun` call returns
"slightly fun" for n in 1..2, "pretty fun" for 3..6, "very fun" for 7..10 and
"had too much fun!" for every n > 10. -/
theorem fun_device_have_fun_sequence (n : Nat) (h : 1 ≤ n) :
    nth_have_fun n = some
      (if n ≤ 2 then "slightly fun"
       else if n ≤ 6 then "pretty fun"
       else if n ≤ 10 then "very fun"
       else "had too much fun!") := by
  unfold nth_have_fun
  rw [fun_count_after_eq]
  by_cases h10 : n ≤ 10
  · rw [Nat.min_eq_left (by omega)]
    have hlt : n - 1 < 10 := by omega
    rw [have_fun_of_lt _ hlt]
    have hn : n - 1 + 1 = n := by omega
    rw [hn]
    by_cases h2 : n ≤ 2
    · rw [if_pos (show n < 3 by omega), if_pos h2]
    · rw [if_neg (show ¬n < 3 by omega), if_neg h2]
      by_cases h6 : n ≤ 6
      · rw [if_pos (show 3 ≤ n ∧ n < 7 by omega), if_pos h6]
      · rw [if_neg (show ¬(3 ≤ n ∧ n < 7) by omega), if_neg h6,
          if_pos (show 7 ≤ n ∧ n ≤ 10 by omega), if_pos h10]
  · rw [Nat.min_eq_right (by omega), have_fun_of_ge 10 (le_refl 10),
      if_neg (by omega), if_neg (by omega), if_neg h10]

theorem fun_device_have_fun_sequence_witness :
    nth_have_fun 1 = some "slightly fun" ∧
    nth_have_fun 5 = some "pretty fun" ∧
    nth_have_fun 9 = some "very fun" ∧
    nth_have_fun 23 = some "had too much fun!" := by
  have h1 := fun_device_have_fun_sequence 1 (by decide)
  have h5 := fun_device_have_fun_sequence 5 (by decide)
  have h9 := fun_device_have_fun_sequence 9 (by decide)
  have h23 := fun_device_have_fun_sequence 23 (by decide)
  exact ⟨by simpa using h1, by simpa using h5, by simpa using h9, by simpa using h23⟩
